import Mathlib

/-!
Verification of the keyword-only-arguments decorator.

The definitions below are a shallow embedding of `keyword_only_args.py`:

* `Config` holds what `inspect.getargspec` returns at decoration time:
  the declared parameter names in declaration order and the trailing
  default values (getargspec guarantees `defaults.length ≤ names.length`).
* `PyVal` is the value universe; the constructor `PyVal.noDefault`
  embeds the module-level `no_default` sentinel object.
* `wrapper` embeds the call-time `wrapper(*args, **kws)` closure; it
  returns either a structured `CallError` (the `TypeError` the source
  raises) or the pair `(args, kws)` that is forwarded to the wrapped
  function.
* `missingArgsMessage` embeds `_wrong_args`; it returns `none` exactly
  where the source would crash on `ordered_args[-1]` with an empty list.
* `nativeKeywordOnlyBind` is the comparison baseline for the refinement
  claim; it follows the specification text (glossary and section 8): a
  function whose non-keyword-only parameters are positional-or-keyword
  in declaration order and whose keyword-only parameters may only be
  supplied by name, all with the declared defaults.
-/

/-- Values moved around by the wrapper.  `noDefault` embeds the
module-level sentinel object `no_default` from the source. -/
inductive PyVal where
  | noDefault : PyVal
  | int : Int → PyVal
  | str : String → PyVal
  deriving DecidableEq, Repr

/-- Decoration-time data obtained from `inspect.getargspec(wrapped)`:
the function name, the declared parameter names in declaration order,
and the default values for the trailing parameters.  The embedding
assumes `defaults.length ≤ names.length`, which getargspec guarantees. -/
structure Config where
  funcName : String
  names : List String
  defaults : List PyVal
  deriving DecidableEq, Repr

/-- Embeds `frozenset(names[len(names) - len(defaults):])` from the
decorator (the parameters that carry a default value). -/
def Config.namesWithDefaults (cfg : Config) : Finset String :=
  (cfg.names.drop (cfg.names.length - cfg.defaults.length)).toFinset

/-- Embeds the `names_defaults` tuple: each declared name in declaration
order paired with its default, `no_default` where there is none.  The
source builds this with a reversed `zip_longest` with fill value
`no_default`; for `defaults.length ≤ names.length` that equals pairing
the first `names.length - defaults.length` names with the sentinel and
the rest with the defaults in order. -/
def Config.namesDefaults (cfg : Config) : List (String × PyVal) :=
  cfg.names.zip
    (List.replicate (cfg.names.length - cfg.defaults.length) PyVal.noDefault
      ++ cfg.defaults)

/-- Embeds `names = frozenset(names)` (line 65 of the source). -/
def Config.nameSet (cfg : Config) : Finset String :=
  cfg.names.toFinset

/-- Embeds the decoration-time choice of `kw_only_names`: the explicit
names when `kw_only_parameters` is nonempty, otherwise the parameters
with defaults. -/
def kwOnlyNames (kwOnlyParameters : List String) (cfg : Config) : Finset String :=
  if kwOnlyParameters.isEmpty then cfg.namesWithDefaults
  else kwOnlyParameters.toFinset

/-- Embeds `kw_names = frozenset(kws)`: the set of supplied keyword
argument names. -/
def kwNames (kws : List (String × PyVal)) : Finset String :=
  (kws.map Prod.fst).toFinset

/-- Embeds `bound_kw_names = kw_names | names_with_defaults`. -/
def boundKwNames (cfg : Config) (kws : List (String × PyVal)) : Finset String :=
  kwNames kws ∪ cfg.namesWithDefaults

/-- Embeds `len(names - bound_kw_names)`, the exact number of
positional arguments the wrapper demands. -/
def requiredPositional (cfg : Config) (kws : List (String × PyVal)) : Nat :=
  (cfg.nameSet \ boundKwNames cfg kws).card

/-- Association-list lookup on string-keyed pairs (first match wins),
used both for Python dict lookups and for `names_defaults` queries. -/
def ndLookup : List (String × PyVal) → String → Option PyVal
  | [], _ => none
  | (k, v) :: rest, n => if k = n then some v else ndLookup rest n

/-- Embeds the single-quote wrapping applied to each name in the error
messages. -/
def quoteName (a : String) : String :=
  "\x27" ++ a ++ "\x27"

/-- Embeds the Python `sep.join(pieces)` string operation. -/
def sepJoin (sep : String) : List String → String
  | [] => ""
  | [a] => a
  | a :: b :: rest => a ++ sep ++ sepJoin sep (b :: rest)

/-- Embeds the `ordered_args` computation of `_wrong_args`: the missing
names listed in declaration order, then the first `numberOfArgs`
dropped. -/
def orderedMissing (namesDefaults : List (String × PyVal)) (missingArgs : Finset String)
    (numberOfArgs : Nat) : List String :=
  (((namesDefaults.map Prod.fst).filter (fun a => decide (a ∈ missingArgs))).drop
    numberOfArgs)

/-- Embeds the shared head of the `_wrong_args` message:
`%s() missing %d required %s argument` formatted with the function
name, the count and the argument type. -/
def missingHead (funcName : String) (argType : String) (count : Nat) : String :=
  funcName ++ "() missing " ++ toString count ++ " required " ++ argType
    ++ " argument"

/-- Embeds the message construction of `_wrong_args` given the already
ordered missing-name list.  The source indexes `ordered_args[-1]` in the
plural branch, which crashes on an empty list; that case is `none`. -/
def missingArgsMessage (funcName : String) (argType : String)
    (ordered : List String) : Option String :=
  if ordered.length = 1 then
    some (missingHead funcName argType ordered.length ++ ": "
      ++ quoteName (ordered.headD ""))
  else
    match ordered.getLast? with
    | none => none
    | some last =>
      some (missingHead funcName argType ordered.length ++ "s: "
        ++ sepJoin " " (ordered.dropLast.map quoteName)
        ++ " and " ++ quoteName last)

/-- Structured form of the `TypeError`s the wrapper raises.
`wrongNumber` is the exact-count error of line 96 (its first number can
be negative because the source prints `len(names) - len(bound_kw_names)`
where `bound_kw_names` may contain non-parameter keywords);
`missing` carries the argument kind string and the ordered missing-name
list that `_wrong_args` formats. -/
inductive CallError where
  | wrongNumber : String → Int → Nat → CallError
  | missing : String → String → List String → CallError
  deriving DecidableEq, Repr

/-- Renders a `CallError` to the exact message string the source puts in
the raised `TypeError`. -/
def CallError.message : CallError → Option String
  | .wrongNumber funcName takes given =>
    some (funcName ++ "() takes " ++ toString takes
      ++ " positional arguments but " ++ toString given ++ " was given")
  | .missing funcName argType ordered => missingArgsMessage funcName argType ordered

/-- Embeds `kws.pop(name, default)`: returns the stored value and the
dict with that entry removed, or the default and the unchanged dict. -/
def kwsPop : List (String × PyVal) → String → PyVal → PyVal × List (String × PyVal)
  | [], _, d => (d, [])
  | (k, v) :: rest, n, d =>
    if k = n then (v, rest)
    else
      let r := kwsPop rest n d
      (r.1, (k, v) :: r.2)

/-- Embeds Python `list.insert(index, x)`: inserts at `index`, clamping
to the end when `index` exceeds the length. -/
def pyInsert (l : List PyVal) (index : Nat) (x : PyVal) : List PyVal :=
  l.take index ++ x :: l.drop index

/-- Embeds the splice loop of the wrapper: walk `names_defaults` with
`enumerate`, and for each name in `kw_only_names` or in
`bound_kw_names = kw_names & names` insert `kws.pop(name, default)` at
the declared index. -/
def spliceLoop (kwOnly : Finset String) (boundKw : Finset String) :
    List (String × PyVal) → Nat → List PyVal → List (String × PyVal) →
      List PyVal × List (String × PyVal)
  | [], _, args, kws => (args, kws)
  | (name, default) :: rest, index, args, kws =>
    if name ∈ kwOnly ∨ name ∈ boundKw then
      let p := kwsPop kws name default
      spliceLoop kwOnly boundKw rest (index + 1) (pyInsert args index p.1) p.2
    else
      spliceLoop kwOnly boundKw rest (index + 1) args kws

/-- Embeds the call-time `wrapper(*args, **kws)` closure: the three
checks in source order (exact positional count, keyword-only coverage,
positional coverage), then the splice loop.  A successful run returns
the `(args, kws)` pair forwarded to the wrapped function. -/
def wrapper (kwOnlyParameters : List String) (cfg : Config) (args : List PyVal)
    (kws : List (String × PyVal)) :
    Except CallError (List PyVal × List (String × PyVal)) :=
  if args.length ≠ requiredPositional cfg kws then
    .error (.wrongNumber cfg.funcName
      ((cfg.nameSet.card : Int) - ((boundKwNames cfg kws).card : Int))
      args.length)
  else if ¬ kwOnlyNames kwOnlyParameters cfg ⊆ boundKwNames cfg kws then
    .error (.missing cfg.funcName "keyword-only"
      (orderedMissing cfg.namesDefaults
        (kwOnlyNames kwOnlyParameters cfg \ boundKwNames cfg kws) 0))
  else if args.length < requiredPositional cfg kws then
    .error (.missing cfg.funcName "positional"
      (orderedMissing cfg.namesDefaults (cfg.nameSet \ boundKwNames cfg kws)
        args.length))
  else
    .ok (spliceLoop (kwOnlyNames kwOnlyParameters cfg) (kwNames kws ∩ cfg.nameSet)
      cfg.namesDefaults 0 args kws)

instance {ε α : Type} [DecidableEq ε] [DecidableEq α] : DecidableEq (Except ε α)
  | .error a, .error b =>
    if h : a = b then .isTrue (by rw [h])
    else .isFalse (by intro hc; cases hc; exact h rfl)
  | .error _, .ok _ => .isFalse (by intro hc; cases hc)
  | .ok _, .error _ => .isFalse (by intro hc; cases hc)
  | .ok a, .ok b =>
    if h : a = b then .isTrue (by rw [h])
    else .isFalse (by intro hc; cases hc; exact h rfl)

/-- Tests whether a wrapper outcome is the missing-positional-argument
error. -/
def raisesMissingPositional :
    Except CallError (List PyVal × List (String × PyVal)) → Bool
  | .error (.missing _ argType _) => argType == "positional"
  | _ => false

/-- Tests whether a wrapper outcome is a missing-argument error of
either kind. -/
def isMissingError :
    Except CallError (List PyVal × List (String × PyVal)) → Bool
  | .error (.missing _ _ _) => true
  | _ => false

/-- Tests whether a wrapper outcome is the missing-keyword-only-argument
error. -/
def isMissingKwOnlyError :
    Except CallError (List PyVal × List (String × PyVal)) → Bool
  | .error (.missing _ argType _) => argType == "keyword-only"
  | _ => false

/-- Classifies a wrapper outcome as success, the exact-count error, or
the missing-keyword-only error; any other raised error makes this
false. -/
def errorKindOK : Except CallError (List PyVal × List (String × PyVal)) → Bool
  | .ok _ => true
  | .error (.wrongNumber _ _ _) => true
  | .error (.missing _ argType _) => argType == "keyword-only"

/-- Modelled from the spec: parameter binding for a function declared
with native keyword-only parameters (spec glossary and section 8).  The
non-keyword-only parameters are positional-or-keyword in declaration
order, the keyword-only parameters may only be supplied by name, and
every parameter falls back to its declared default.  Produces the bound
environment in declaration order, or `none` when the call is invalid
(too many positional arguments, an unexpected keyword, a parameter
supplied both positionally and by name, or a required parameter left
uncovered). -/
def nativeKeywordOnlyBind (names : List String) (defaults : List PyVal)
    (kwOnly : Finset String) (args : List PyVal) (kws : List (String × PyVal)) :
    Option (List (String × PyVal)) :=
  let pos := names.filter (fun n => decide (n ∉ kwOnly))
  let posEnv := (pos.take args.length).zip args
  let nd := names.zip
    (List.replicate (names.length - defaults.length) PyVal.noDefault ++ defaults)
  if args.length > pos.length then none
  else if kws.any (fun kv => decide (kv.1 ∉ names)) then none
  else if kws.any (fun kv => (ndLookup posEnv kv.1).isSome) then none
  else
    names.mapM (fun n =>
      match ndLookup posEnv n with
      | some v => some (n, v)
      | none =>
        match ndLookup kws n with
        | some v => some (n, v)
        | none =>
          match ndLookup nd n with
          | some PyVal.noDefault => none
          | some d => some (n, d)
          | none => none)

/-- Composition of the wrapper with an ordinary positional-or-keyword
call of the wrapped function: the environment the decorated call
ultimately binds, or `none` when it raises.  Calling the wrapped
function natively is `nativeKeywordOnlyBind` with an empty keyword-only
set. -/
def decoratedCallEnv (kwOnlyParameters : List String) (cfg : Config)
    (args : List PyVal) (kws : List (String × PyVal)) :
    Option (List (String × PyVal)) :=
  match wrapper kwOnlyParameters cfg args kws with
  | .error _ => none
  | .ok (args2, kws2) => nativeKeywordOnlyBind cfg.names cfg.defaults ∅ args2 kws2

/-- Front-recursive form of the plural name join: all names separated by
single spaces with `and` before the last one. -/
def spaceAndJoin : List String → String
  | [] => ""
  | [a] => a
  | [a, b] => a ++ " and " ++ b
  | a :: b :: c :: rest => a ++ " " ++ spaceAndJoin (b :: c :: rest)

/-! Helper lemmas shared by the claim theorems. -/

/-- Appending strings is associative. -/
theorem strAppendAssoc (a b c : String) : a ++ b ++ c = a ++ (b ++ c) :=
  String.ext (by simp [String.data_append, List.append_assoc])

/-- When the positional count is wrong, the wrapper raises the
exact-count error of line 96. -/
theorem wrapper_eq_wrongNumber (K : List String) (cfg : Config) (args : List PyVal)
    (kws : List (String × PyVal)) (h : args.length ≠ requiredPositional cfg kws) :
    wrapper K cfg args kws =
      .error (.wrongNumber cfg.funcName
        ((cfg.nameSet.card : Int) - ((boundKwNames cfg kws).card : Int))
        args.length) := by
  unfold wrapper
  rw [if_pos h]

/-- When the positional count matches but a keyword-only parameter is
uncovered, the wrapper raises the missing-keyword-only error. -/
theorem wrapper_eq_missing_kw_only (K : List String) (cfg : Config) (args : List PyVal)
    (kws : List (String × PyVal)) (h1 : args.length = requiredPositional cfg kws)
    (h2 : ¬ kwOnlyNames K cfg ⊆ boundKwNames cfg kws) :
    wrapper K cfg args kws =
      .error (.missing cfg.funcName "keyword-only"
        (orderedMissing cfg.namesDefaults
          (kwOnlyNames K cfg \ boundKwNames cfg kws) 0)) := by
  unfold wrapper
  rw [if_neg (fun hne => hne h1), if_pos h2]

/-- Projecting the names out of `namesDefaults` recovers the declared
name list. -/
theorem namesDefaults_map_fst (cfg : Config) :
    cfg.namesDefaults.map Prod.fst = cfg.names := by
  unfold Config.namesDefaults
  rw [List.map_fst_zip]
  simp only [List.length_append, List.length_replicate]
  omega

/-! Claim theorems. -/

/-- C1: the decorated call does not always agree with the equivalent
native keyword-only call.  With parameters `(p=1, k=2)`, `k` marked
keyword-only, and a call with no arguments, the wrapper forwards
`wrapped(2)` (the splice loop inserts the default of `k` at index 1 of
an empty list, which clamps to index 0), so `p` receives 2 while the
native call binds `p = 1` and `k = 2`. -/
theorem wrapper_native_divergence :
    decoratedCallEnv ["k"] ⟨"f", ["p", "k"], [PyVal.int 1, PyVal.int 2]⟩ [] []
        = some [("p", PyVal.int 2), ("k", PyVal.int 2)] ∧
      nativeKeywordOnlyBind ["p", "k"] [PyVal.int 1, PyVal.int 2]
          (kwOnlyNames ["k"] ⟨"f", ["p", "k"], [PyVal.int 1, PyVal.int 2]⟩) [] []
        = some [("p", PyVal.int 1), ("k", PyVal.int 2)] ∧
      decoratedCallEnv ["k"] ⟨"f", ["p", "k"], [PyVal.int 1, PyVal.int 2]⟩ [] []
        ≠ nativeKeywordOnlyBind ["p", "k"] [PyVal.int 1, PyVal.int 2]
            (kwOnlyNames ["k"] ⟨"f", ["p", "k"], [PyVal.int 1, PyVal.int 2]⟩) [] [] := by
  refine ⟨by decide, by decide, by decide⟩

/-- C2 counterexample: with parameters `(a, b)`, `b` keyword-only, and a
call supplying no arguments, the keyword-only parameter `b` lacks both a
named argument and a default, yet the raised error is the exact-count
`TypeError`, not the missing-keyword-only error: the count check runs
first. -/
theorem kw_only_check_not_first :
    wrapper ["b"] ⟨"f", ["a", "b"], []⟩ [] [] = .error (.wrongNumber "f" 2 0) ∧
      isMissingKwOnlyError (wrapper ["b"] ⟨"f", ["a", "b"], []⟩ [] []) = false := by
  refine ⟨by decide, by decide⟩

/-- C2 amended: the missing-keyword-only error is raised exactly when
the positional count matches the required count and some keyword-only
parameter lacks both a supplied named argument and a default; otherwise
the exact-count check raises first. -/
theorem missing_kw_only_when_count_matches (K : List String) (cfg : Config)
    (args : List PyVal) (kws : List (String × PyVal))
    (h1 : args.length = requiredPositional cfg kws)
    (h2 : ¬ kwOnlyNames K cfg ⊆ boundKwNames cfg kws) :
    wrapper K cfg args kws =
      .error (.missing cfg.funcName "keyword-only"
        (orderedMissing cfg.namesDefaults
          (kwOnlyNames K cfg \ boundKwNames cfg kws) 0)) :=
  wrapper_eq_missing_kw_only K cfg args kws h1 h2

/-- C2 amended, witness at parameters `(a, b)`, keyword-only `b`,
call `f(0, 1)`. -/
theorem missing_kw_only_when_count_matches_witness :
    ((([PyVal.int 0, PyVal.int 1] : List PyVal).length
        = requiredPositional ⟨"f", ["a", "b"], []⟩ []) ∧
      ¬ kwOnlyNames ["b"] ⟨"f", ["a", "b"], []⟩ ⊆ boundKwNames ⟨"f", ["a", "b"], []⟩ []) ∧
      wrapper ["b"] ⟨"f", ["a", "b"], []⟩ [PyVal.int 0, PyVal.int 1] []
        = .error (.missing "f" "keyword-only" ["b"]) :=
  ⟨⟨by decide, by decide⟩,
    missing_kw_only_when_count_matches ["b"] ⟨"f", ["a", "b"], []⟩
      [PyVal.int 0, PyVal.int 1] [] (by decide) (by decide)⟩

/-- C3 counterexample: with the default decorator on `f(a)` and a call
with no arguments, the wrapper raises the exact-count `TypeError`, which
is neither MissingKeywordOnlyArgument nor MissingPositionalArgument. -/
theorem wrapper_raises_third_error_kind :
    wrapper [] ⟨"f", ["a"], []⟩ [] [] = .error (.wrongNumber "f" 1 0) ∧
      isMissingError (wrapper [] ⟨"f", ["a"], []⟩ [] []) = false := by
  refine ⟨by decide, by decide⟩

/-- C3 amended: every error the wrapper itself raises is one of exactly
two kinds, the exact-count `TypeError` or the missing-keyword-only
error; the missing-positional error is never raised. -/
theorem wrapper_error_kinds (K : List String) (cfg : Config) (args : List PyVal)
    (kws : List (String × PyVal)) :
    errorKindOK (wrapper K cfg args kws) = true := by
  unfold wrapper
  split_ifs <;> first | rfl | (exfalso; omega)

/-- C9: the missing-positional branch of the wrapper is unreachable —
whenever the supplied positional count falls short, the exact-count
check has already raised, so no call ever produces the
missing-positional error. -/
theorem missing_positional_unreachable (K : List String) (cfg : Config)
    (args : List PyVal) (kws : List (String × PyVal)) :
    raisesMissingPositional (wrapper K cfg args kws) = false := by
  unfold wrapper
  split_ifs <;> first | rfl | (exfalso; omega)

/-- C10: whenever the supplied positional count differs in either
direction from the number of parameters lacking both a default and a
supplied named argument, the wrapper raises the `TypeError` of the form
`takes N positional arguments but M was given`. -/
theorem exact_count_required (K : List String) (cfg : Config) (args : List PyVal)
    (kws : List (String × PyVal))
    (h : args.length ≠ requiredPositional cfg kws) :
    wrapper K cfg args kws =
        .error (.wrongNumber cfg.funcName
          ((cfg.nameSet.card : Int) - ((boundKwNames cfg kws).card : Int))
          args.length) ∧
      CallError.message (.wrongNumber cfg.funcName
          ((cfg.nameSet.card : Int) - ((boundKwNames cfg kws).card : Int))
          args.length)
        = some (cfg.funcName ++ "() takes "
            ++ toString ((cfg.nameSet.card : Int) - ((boundKwNames cfg kws).card : Int))
            ++ " positional arguments but " ++ toString args.length
            ++ " was given") :=
  ⟨wrapper_eq_wrongNumber K cfg args kws h, rfl⟩

/-- C10 witness: parameters `(a, b)` where `b` has a default, default
decorator mode, call
`f(0, 1)` — the defaulted `b` cannot be supplied positionally. -/
theorem exact_count_required_witness :
    (([PyVal.int 0, PyVal.int 1] : List PyVal).length
        ≠ requiredPositional ⟨"f", ["a", "b"], [PyVal.str "b"]⟩ []) ∧
      wrapper [] ⟨"f", ["a", "b"], [PyVal.str "b"]⟩ [PyVal.int 0, PyVal.int 1] []
          = .error (.wrongNumber "f" 1 2) ∧
        CallError.message (.wrongNumber "f" 1 2)
          = some "f() takes 1 positional arguments but 2 was given" :=
  ⟨by decide,
    exact_count_required [] ⟨"f", ["a", "b"], [PyVal.str "b"]⟩
      [PyVal.int 0, PyVal.int 1] [] (by decide)⟩

/-- C6 counterexample: parameters `(a, b, c, d)` where `c` and `d` have
defaults, with `c`
keyword-only, called with no arguments, raise the exact-count
`TypeError`, not the claimed missing-keyword-only message. -/
theorem no_args_call_not_kw_only_error :
    wrapper ["c"] ⟨"f", ["a", "b", "c", "d"], [PyVal.str "c", PyVal.str "d"]⟩ [] []
        = .error (.wrongNumber "f" 2 0) ∧
      isMissingKwOnlyError
          (wrapper ["c"] ⟨"f", ["a", "b", "c", "d"], [PyVal.str "c", PyVal.str "d"]⟩ [] [])
        = false ∧
      CallError.message (.wrongNumber "f" 2 0)
        ≠ some ("f() missing 1 required keyword-only argument: " ++ quoteName "c") := by
  refine ⟨by decide, by decide, by decide⟩

/-- C6 amended: parameters `(a, b, c, d)` where `c` and `d` have
defaults, with `c` keyword-only,
called with no arguments, raise the `TypeError` whose message reads
`f() takes 2 positional arguments but 0 was given`. -/
theorem no_args_call_count_error :
    wrapper ["c"] ⟨"f", ["a", "b", "c", "d"], [PyVal.str "c", PyVal.str "d"]⟩ [] []
        = .error (.wrongNumber "f" 2 0) ∧
      CallError.message (.wrongNumber "f" 2 0)
        = some "f() takes 2 positional arguments but 0 was given" := by
  refine ⟨by decide, by decide⟩

/-- C5 counterexample: with three missing keyword-only names the raised
message joins the quoted names with plain spaces rather than with the
comma separators the claim describes. -/
theorem plural_join_not_comma :
    wrapper ["a", "b", "c"] ⟨"f", ["a", "b", "c"], []⟩
        [PyVal.int 0, PyVal.int 1, PyVal.int 2] []
        = .error (.missing "f" "keyword-only" ["a", "b", "c"]) ∧
      CallError.message (.missing "f" "keyword-only" ["a", "b", "c"])
        = some "f() missing 3 required keyword-only arguments: \x27a\x27 \x27b\x27 and \x27c\x27" ∧
      CallError.message (.missing "f" "keyword-only" ["a", "b", "c"])
        ≠ some "f() missing 3 required keyword-only arguments: \x27a\x27, \x27b\x27 and \x27c\x27" := by
  refine ⟨by decide, by decide, by decide⟩

/-- C4: whenever the wrapper raises a missing-argument error, the listed
names form a sublist of the declared parameter names, hence appear in
declaration order; and for any missing set, `_wrong_args` with a skip
count lists the declaration-ordered missing names with the first
`numberOfArgs` of them removed. -/
theorem wrapper_missing_declaration_order :
    (∀ (K : List String) (cfg : Config) (args : List PyVal)
        (kws : List (String × PyVal)) (f t : String) (l : List String),
        wrapper K cfg args kws = .error (.missing f t l) → l.Sublist cfg.names) ∧
      ∀ (nd : List (String × PyVal)) (m : Finset String) (k : Nat),
        orderedMissing nd m k = (orderedMissing nd m 0).drop k := by
  constructor
  · intro K cfg args kws f t l h
    unfold wrapper at h
    split_ifs at h with h1 h2 h3
    · simp at h
    · exfalso
      omega
    · simp only [Except.error.injEq, CallError.missing.injEq] at h
      obtain ⟨-, -, hl⟩ := h
      subst hl
      unfold orderedMissing
      rw [namesDefaults_map_fst]
      exact (List.drop_sublist _ _).trans (List.filter_sublist cfg.names)
  · intro nd m k
    simp [orderedMissing]

/-- C4 witness: a raised missing-keyword-only error whose name list is a
sublist of the declaration order. -/
theorem wrapper_missing_declaration_order_witness :
    (wrapper ["b"] ⟨"f", ["a", "b"], []⟩ [PyVal.int 0, PyVal.int 1] []
        = .error (.missing "f" "keyword-only" ["b"])) ∧
      List.Sublist ["b"] ["a", "b"] :=
  ⟨by decide,
    wrapper_missing_declaration_order.1 ["b"] ⟨"f", ["a", "b"], []⟩
      [PyVal.int 0, PyVal.int 1] [] "f" "keyword-only" ["b"] (by decide)⟩

/-- C8 counterexample: with parameters `(a, b)` and `b` keyword-only
with no default, the call `g()` omits `b` from the named arguments yet
raises the exact-count `TypeError`, not MissingKeywordOnlyArgument. -/
theorem omitted_kw_only_not_always_kw_error :
    wrapper ["b"] ⟨"g", ["a", "b"], []⟩ [] [] = .error (.wrongNumber "g" 2 0) ∧
      isMissingKwOnlyError (wrapper ["b"] ⟨"g", ["a", "b"], []⟩ [] []) = false := by
  refine ⟨by decide, by decide⟩

/-- C8 amended: omitting from the named arguments a keyword-only
parameter that has no default always makes the call fail; the error is
MissingKeywordOnlyArgument naming that parameter (possibly among
others) exactly when the supplied positional count matches the required
count, and the exact-count `TypeError` otherwise. -/
theorem omitted_kw_only_raises (K : List String) (cfg : Config)
    (args : List PyVal) (kws : List (String × PyVal)) (p : String)
    (hname : p ∈ cfg.names) (hk : p ∈ kwOnlyNames K cfg)
    (hdef : p ∉ cfg.namesWithDefaults) (hkw : p ∉ kwNames kws) :
    (∃ e, wrapper K cfg args kws = .error e) ∧
      (args.length = requiredPositional cfg kws →
        ∃ l, wrapper K cfg args kws
            = .error (.missing cfg.funcName "keyword-only" l) ∧ p ∈ l) := by
  have hpb : p ∉ boundKwNames cfg kws := by
    unfold boundKwNames
    rw [Finset.mem_union]
    rintro (h | h)
    · exact hkw h
    · exact hdef h
  have hns : ¬ kwOnlyNames K cfg ⊆ boundKwNames cfg kws := fun hs => hpb (hs hk)
  by_cases hc : args.length = requiredPositional cfg kws
  · refine ⟨⟨_, wrapper_eq_missing_kw_only K cfg args kws hc hns⟩, fun _ => ?_⟩
    refine ⟨_, wrapper_eq_missing_kw_only K cfg args kws hc hns, ?_⟩
    unfold orderedMissing
    rw [namesDefaults_map_fst]
    simp only [List.drop_zero]
    rw [List.mem_filter]
    refine ⟨hname, ?_⟩
    simp [Finset.mem_sdiff, hk, hpb]
  · exact ⟨⟨_, wrapper_eq_wrongNumber K cfg args kws hc⟩, fun h => absurd h hc⟩

/-- C8 amended, witness at parameters `(a, b)`, keyword-only `b`,
call `f(0, 1)`. -/
theorem omitted_kw_only_raises_witness :
    ("b" ∈ (["a", "b"] : List String) ∧
        "b" ∈ kwOnlyNames ["b"] ⟨"f", ["a", "b"], []⟩ ∧
        "b" ∉ Config.namesWithDefaults ⟨"f", ["a", "b"], []⟩ ∧
        "b" ∉ kwNames ([] : List (String × PyVal))) ∧
      (∃ e, wrapper ["b"] ⟨"f", ["a", "b"], []⟩ [PyVal.int 0, PyVal.int 1] []
          = .error e) ∧
        (([PyVal.int 0, PyVal.int 1] : List PyVal).length
            = requiredPositional ⟨"f", ["a", "b"], []⟩ [] →
          ∃ l, wrapper ["b"] ⟨"f", ["a", "b"], []⟩ [PyVal.int 0, PyVal.int 1] []
              = .error (.missing "f" "keyword-only" l) ∧ "b" ∈ l) :=
  ⟨⟨by decide, by decide, by decide, by decide⟩,
    omitted_kw_only_raises ["b"] ⟨"f", ["a", "b"], []⟩ [PyVal.int 0, PyVal.int 1] [] "b"
      (by decide) (by decide) (by decide) (by decide)⟩

/-- Joining all but the last name with spaces and appending `and` plus
the last name equals the front-recursive space-and join. -/
theorem sepJoin_and (x y : String) (rest : List String) (a : String)
    (hl : (x :: y :: rest).getLast? = some a) :
    sepJoin " " (x :: y :: rest).dropLast ++ " and " ++ a
      = spaceAndJoin (x :: y :: rest) := by
  induction rest generalizing x y with
  | nil =>
    simp only [List.getLast?_cons_cons, List.getLast?_singleton,
      Option.some.injEq] at hl
    subst hl
    simp [sepJoin, spaceAndJoin]
  | cons z t ih =>
    have hl2 : (y :: z :: t).getLast? = some a := by
      rwa [List.getLast?_cons_cons] at hl
    have hd2 : (y :: z :: t).dropLast = y :: (z :: t).dropLast :=
      List.dropLast_cons₂
    rw [List.dropLast_cons₂, hd2]
    show x ++ " " ++ sepJoin " " (y :: (z :: t).dropLast) ++ " and " ++ a
      = spaceAndJoin (x :: y :: z :: t)
    rw [strAppendAssoc (x ++ " ") (sepJoin " " (y :: (z :: t).dropLast)) " and ",
      strAppendAssoc (x ++ " ") (sepJoin " " (y :: (z :: t).dropLast) ++ " and ") a,
      ← hd2, ih y z hl2]
    rfl

/-- Unfolding lemma for the plural branch of the message builder. -/
theorem missingArgsMessage_plural (f t : String) (ordered : List String) (a : String)
    (hne : ordered.length ≠ 1) (ha : ordered.getLast? = some a) :
    missingArgsMessage f t ordered
      = some (missingHead f t ordered.length ++ "s: "
          ++ sepJoin " " (ordered.dropLast.map quoteName)
          ++ " and " ++ quoteName a) := by
  unfold missingArgsMessage
  rw [if_neg hne, ha]

/-- C5 amended: a single missing name produces the singular message
ending in a colon and the quoted name; two or more missing names produce
the plural message whose quoted names are joined by single spaces with
`and` before the last one (no commas at all). -/
theorem missing_message_format :
    (∀ f t a, missingArgsMessage f t [a]
        = some (missingHead f t 1 ++ ": " ++ quoteName a)) ∧
      ∀ f t (l : List String), 2 ≤ l.length →
        missingArgsMessage f t l
          = some (missingHead f t l.length ++ "s: "
              ++ spaceAndJoin (l.map quoteName)) := by
  constructor
  · intro f t a
    rfl
  · intro f t l h2
    match l, h2 with
    | x :: y :: rest, _ =>
      have hne : (x :: y :: rest).length ≠ 1 := by
        simp only [List.length_cons]
        omega
      obtain ⟨a, ha⟩ : ∃ a, (x :: y :: rest).getLast? = some a := by
        cases hq : (x :: y :: rest).getLast? with
        | some a => exact ⟨a, rfl⟩
        | none =>
          rw [List.getLast?_eq_none_iff] at hq
          cases hq
      rw [missingArgsMessage_plural f t (x :: y :: rest) a hne ha]
      congr 1
      rw [List.map_dropLast quoteName (x :: y :: rest)]
      rw [strAppendAssoc (missingHead f t (x :: y :: rest).length ++ "s: ")
          (sepJoin " " (((x :: y :: rest).map quoteName).dropLast)) " and ",
        strAppendAssoc (missingHead f t (x :: y :: rest).length ++ "s: ")
          (sepJoin " " (((x :: y :: rest).map quoteName).dropLast) ++ " and ")
          (quoteName a)]
      congr 1
      have hlast : (quoteName x :: quoteName y :: rest.map quoteName).getLast?
          = some (quoteName a) := by
        show ((x :: y :: rest).map quoteName).getLast? = some (quoteName a)
        rw [List.getLast?_map, ha]
        rfl
      exact sepJoin_and (quoteName x) (quoteName y) (rest.map quoteName)
        (quoteName a) hlast

/-- C5 amended, witness at two missing names. -/
theorem missing_message_format_witness :
    2 ≤ (["a", "b"] : List String).length ∧
      missingArgsMessage "f" "keyword-only" ["a", "b"]
        = some (missingHead "f" "keyword-only" 2 ++ "s: "
            ++ spaceAndJoin (["a", "b"].map quoteName)) :=
  ⟨by decide,
    missing_message_format.2 "f" "keyword-only" ["a", "b"] (by decide)⟩

/-- Looking a member name up in a zip whose value side contains no
sentinel never yields the sentinel. -/
theorem ndLookup_ne_noDefault (names : List String) (vals : List PyVal) (n : String)
    (hlen : names.length ≤ vals.length)
    (hv : ∀ i : Nat, vals[i]? ≠ some PyVal.noDefault)
    (hn : n ∈ names) :
    ndLookup (names.zip vals) n ≠ some PyVal.noDefault := by
  induction names generalizing vals with
  | nil => cases hn
  | cons m ms ih =>
    cases vals with
    | nil => simp at hlen
    | cons v vs =>
      rw [List.zip_cons_cons]
      by_cases hmn : m = n
      · simp only [ndLookup, if_pos hmn]
        intro hc
        exact hv 0 (by simp only [List.getElem?_cons_zero]; exact hc)
      · simp only [ndLookup, if_neg hmn]
        have hn2 : n ∈ ms := by
          rcases List.mem_cons.mp hn with h | h
          · exact absurd h.symm hmn
          · exact h
        refine ih vs ?_ (fun i => ?_) hn2
        · simp only [List.length_cons] at hlen
          omega
        · have := hv (i + 1)
          simpa using this

/-- Membership in the dropped suffix of the name list coincides with
having a non-sentinel entry in the zip, provided the value side is the
sentinel exactly on the first `k` positions. -/
theorem mem_drop_iff_lookup (names : List String) :
    ∀ (vals : List PyVal) (k : Nat) (n : String),
    names.Nodup → names.length ≤ vals.length →
    (∀ i : Nat, vals[i]? = some PyVal.noDefault ↔ i < k) →
    (n ∈ names.drop k ↔
      n ∈ names ∧ ndLookup (names.zip vals) n ≠ some PyVal.noDefault) := by
  induction names with
  | nil =>
    intro vals k n _ _ _
    simp
  | cons m ms ih =>
    intro vals k n hu hlen hv
    cases vals with
    | nil => simp at hlen
    | cons v vs =>
      rw [List.zip_cons_cons]
      obtain ⟨hm, hums⟩ := List.nodup_cons.mp hu
      cases k with
      | zero =>
        simp only [List.drop_zero]
        constructor
        · intro hn
          refine ⟨hn, ?_⟩
          rw [← List.zip_cons_cons]
          refine ndLookup_ne_noDefault (m :: ms) (v :: vs) n hlen (fun i => ?_) hn
          intro hc
          have := (hv i).mp hc
          omega
        · exact fun h => h.1
      | succ k2 =>
        have hv0 : v = PyVal.noDefault := by
          have h0 := (hv 0).mpr (Nat.succ_pos k2)
          simpa using h0
        have hvs : ∀ i : Nat, vs[i]? = some PyVal.noDefault ↔ i < k2 := by
          intro i
          have := hv (i + 1)
          simpa [Nat.succ_lt_succ_iff] using this
        by_cases hmn : m = n
        · subst hmn
          constructor
          · intro hd
            rw [List.drop_succ_cons] at hd
            exact absurd (List.mem_of_mem_drop hd) hm
          · rintro ⟨-, hq⟩
            exfalso
            apply hq
            simp [ndLookup, hv0]
        · have hlen2 : ms.length ≤ vs.length := by
            simp only [List.length_cons] at hlen
            omega
          rw [List.drop_succ_cons, ih vs k2 n hums hlen2 hvs]
          constructor
          · rintro ⟨hms, hq⟩
            refine ⟨List.mem_cons_of_mem m hms, ?_⟩
            simpa [ndLookup, hmn] using hq
          · rintro ⟨hmem, hq⟩
            have hms : n ∈ ms := by
              rcases List.mem_cons.mp hmem with h | h
              · exact absurd h.symm hmn
              · exact h
            refine ⟨hms, ?_⟩
            simpa [ndLookup, hmn] using hq

/-- C7: with no explicit keyword-only names, the decoration-time
keyword-only set is exactly the set of declared parameters whose
`names_defaults` entry carries a real default value, and it is empty
when there are no defaults at all. -/
theorem kw_only_default_mode (cfg : Config)
    (hlen : cfg.defaults.length ≤ cfg.names.length)
    (hnd : PyVal.noDefault ∉ cfg.defaults)
    (hu : cfg.names.Nodup) :
    kwOnlyNames [] cfg
        = cfg.nameSet.filter
            (fun n => ndLookup cfg.namesDefaults n ≠ some PyVal.noDefault) ∧
      (cfg.defaults = [] → kwOnlyNames [] cfg = ∅) := by
  constructor
  · have hlen2 : cfg.names.length ≤
        (List.replicate (cfg.names.length - cfg.defaults.length) PyVal.noDefault
          ++ cfg.defaults).length := by
      simp only [List.length_append, List.length_replicate]
      omega
    have hv : ∀ i : Nat,
        (List.replicate (cfg.names.length - cfg.defaults.length) PyVal.noDefault
          ++ cfg.defaults)[i]? = some PyVal.noDefault ↔
          i < cfg.names.length - cfg.defaults.length := by
      intro i
      by_cases hik : i < cfg.names.length - cfg.defaults.length
      · simp [List.getElem?_append, List.length_replicate, hik,
          List.getElem?_replicate]
      · rw [List.getElem?_append, if_neg (by simpa using hik)]
        constructor
        · intro hc
          exact absurd (List.getElem?_mem hc) hnd
        · intro hik2
          exact absurd hik2 hik
    ext n
    rw [show kwOnlyNames [] cfg = cfg.namesWithDefaults from rfl]
    unfold Config.namesWithDefaults
    rw [List.mem_toFinset, Finset.mem_filter,
      mem_drop_iff_lookup cfg.names _ _ n hu hlen2 hv]
    rw [show (n ∈ cfg.nameSet) = (n ∈ cfg.names) from by
      rw [Config.nameSet, List.mem_toFinset]]
    rfl
  · intro h
    rw [show kwOnlyNames [] cfg = cfg.namesWithDefaults from rfl]
    unfold Config.namesWithDefaults
    simp [h, List.drop_length]

/-- C7 witness at parameters `(a, b=1)`. -/
theorem kw_only_default_mode_witness :
    (([PyVal.int 1] : List PyVal).length ≤ (["a", "b"] : List String).length ∧
        PyVal.noDefault ∉ ([PyVal.int 1] : List PyVal) ∧
        (["a", "b"] : List String).Nodup) ∧
      (kwOnlyNames [] (Config.mk "f" ["a", "b"] [PyVal.int 1])
          = (Config.nameSet (Config.mk "f" ["a", "b"] [PyVal.int 1])).filter
              (fun n =>
                ndLookup (Config.namesDefaults (Config.mk "f" ["a", "b"] [PyVal.int 1])) n
                  ≠ some PyVal.noDefault) ∧
        (Config.defaults (Config.mk "f" ["a", "b"] [PyVal.int 1]) = [] →
          kwOnlyNames [] (Config.mk "f" ["a", "b"] [PyVal.int 1]) = ∅)) :=
  ⟨⟨by decide, by decide, by decide⟩,
    kw_only_default_mode (Config.mk "f" ["a", "b"] [PyVal.int 1])
      (by decide) (by decide) (by decide)⟩
